import Mathlib

/-!
Shallow embedding of the Task-Management-API core
(src/app/models, src/app/schemas, src/app/api/v1) and proofs about it.

Conventions of the embedding:
* machine strings are Lean `String`s, reasoned about through their `.data`
  character lists;
* instants are abstract `Nat` timestamps (`datetime.utcnow()` becomes an
  explicit `now` argument);
* Pydantic request models become structures whose optional request fields use
  `Option` (`none` = the field was not supplied, matching
  `model_dump(exclude_unset=True)`); a validated field carries its
  post-validator value;
* database queries (`select ... where`) become `List.find?` over an explicit
  list-of-records store; PostgreSQL string equality is case-sensitive and is
  modelled by Lean `String` equality;
* HTTP exception classes live in app/core/exceptions.py, which is not part of
  the sources here; they are modelled from the spec (section 7) as result
  constructors carrying the detail message the handler passes.
-/

namespace TaskAPI

/-! ### Python string primitives

`str.strip()`, `str.split()`, `' '.join`, substring test for `'  '`, and
`str.lower()` (ASCII range, which validated usernames live in).  Whitespace
is the full character set Python's `str` methods recognise. -/

/-- The whitespace characters Python `str.strip()` / `str.split()` recognise
(CPython `Py_UNICODE_ISSPACE`): the ASCII controls `\t`, `\n`, `\x0b`,
`\x0c`, `\x0d` and `\x1c`-`\x1f`, the space, next-line `\x85`, no-break
space `\xa0`, and the Unicode space/line/paragraph separators. -/
def pyWhitespaceChars : List Char :=
  ['\t', '\n', '\x0b', '\x0c', '\x0d', '\x1c', '\x1d', '\x1e', '\x1f', ' ',
   '\x85', '\xa0', '\u1680', '\u2000', '\u2001', '\u2002', '\u2003',
   '\u2004', '\u2005', '\u2006', '\u2007', '\u2008', '\u2009', '\u200a',
   '\u2028', '\u2029', '\u202f', '\u205f', '\u3000']

/-- Python's whitespace test, as used by `str.strip()` / `str.split()`. -/
def isPySpace (c : Char) : Bool := pyWhitespaceChars.contains c

/-- Drop leading whitespace (half of Python `str.strip()`). -/
def dropLeadingWS (l : List Char) : List Char := l.dropWhile isPySpace

/-- Drop trailing whitespace (the other half of Python `str.strip()`). -/
def dropTrailingWS : List Char → List Char
  | [] => []
  | c :: rest =>
      match dropTrailingWS rest with
      | [] => if isPySpace c then [] else [c]
      | r :: rs => c :: r :: rs

/-- Python `str.strip()` on a character list. -/
def pyStripL (l : List Char) : List Char := dropTrailingWS (dropLeadingWS l)

/-- Python `str.strip()`. -/
def pyStrip (s : String) : String := ⟨pyStripL s.data⟩

/-- Longest whitespace-free run at the head (helper for `str.split()`). -/
def takeWord : List Char → List Char
  | [] => []
  | c :: rest => if isPySpace c then [] else c :: takeWord rest

/-- Rest of the list after the head word (helper for `str.split()`). -/
def dropWord : List Char → List Char
  | [] => []
  | c :: rest => if isPySpace c then c :: rest else dropWord rest

theorem dropWord_length_le (l : List Char) : (dropWord l).length ≤ l.length := by
  induction l with
  | nil => simp [dropWord]
  | cons c rest ih =>
      simp only [dropWord]
      split
      · exact Nat.le_refl _
      · exact Nat.le_trans ih (Nat.le_succ _)

/-- Fuel-indexed runner for `str.split()`: peel one whitespace character or
one whole word per step.  Structural in the fuel, so concrete instances
compute by `rfl`; any fuel at least the list length yields the full split. -/
def splitWSF : Nat → List Char → List (List Char)
  | _, [] => []
  | 0, _ :: _ => []
  | fuel + 1, c :: rest =>
      if isPySpace c then splitWSF fuel rest
      else (c :: takeWord rest) :: splitWSF fuel (dropWord rest)

/-- Python `str.split()` with no argument: split on whitespace runs,
discarding empty pieces. -/
def splitWS (l : List Char) : List (List Char) := splitWSF l.length l

theorem splitWSF_fuel : ∀ (n m : Nat) (l : List Char),
    l.length ≤ n → l.length ≤ m → splitWSF n l = splitWSF m l := by
  intro n
  induction n with
  | zero =>
      intro m l hn _
      have : l = [] := List.length_eq_zero.mp (Nat.le_zero.mp hn)
      subst this
      cases m <;> rfl
  | succ n ih =>
      intro m l hn hm
      cases l with
      | nil => cases m <;> rfl
      | cons c rest =>
          cases m with
          | zero => simp at hm
          | succ m =>
              simp only [List.length_cons, Nat.add_le_add_iff_right] at hn hm
              simp only [splitWSF]
              cases hc : isPySpace c
              · simp only [Bool.false_eq_true, if_false]
                congr 1
                exact ih m (dropWord rest)
                  (Nat.le_trans (dropWord_length_le _) hn)
                  (Nat.le_trans (dropWord_length_le _) hm)
              · simp only [if_true]
                exact ih m rest hn hm

/-- Python `' '.join(words)`. -/
def joinWords : List (List Char) → List Char
  | [] => []
  | w :: ws =>
      match ws with
      | [] => w
      | _ :: _ => w ++ ' ' :: joinWords ws

/-- Python `'  ' in v`: does the list contain two consecutive spaces? -/
def hasDoubleSpace : List Char → Bool
  | a :: b :: rest => (a = ' ' && b = ' ') || hasDoubleSpace (b :: rest)
  | _ => false

/-- Python `' '.join(v.split())`. -/
def collapseWS (l : List Char) : List Char := joinWords (splitWS l)

/-- ASCII lower-casing of one character (Python `str.lower` on ASCII input). -/
def pyLowerChar (c : Char) : Char :=
  if 'A' ≤ c && c ≤ 'Z' then Char.ofNat (c.toNat + 32) else c

/-- Python `str.lower()` (ASCII range, which validated usernames live in). -/
def pyLower (s : String) : String := ⟨s.data.map pyLowerChar⟩

/-! ### Task data model (src/app/models/task.py) -/

/-- `TaskStatus` enum (models/task.py lines 9-15). -/
inductive TaskStatus
  | todo
  | in_progress
  | done
deriving DecidableEq, Repr

/-- `TaskPriority` enum (models/task.py lines 18-24). -/
inductive TaskPriority
  | low
  | medium
  | high
deriving DecidableEq, Repr

/-- The `Task` ORM row (models/task.py lines 27-39).  Timestamps are abstract
`Nat` instants; nullable columns are `Option`s. -/
structure Task where
  id : Nat
  title : String
  description : Option String
  status : TaskStatus
  priority : TaskPriority
  is_completed : Bool
  owner_id : Nat
  created_at : Nat
  updated_at : Option Nat
  completed_at : Option Nat
deriving DecidableEq, Repr

/-! ### Task schemas (src/app/schemas/task.py) -/

/-- `TaskBase.validate_title` (schemas/task.py lines 35-46), preceded by the
`Field(min_length=1, max_length=200)` constraint Pydantic applies first:
strip; reject when empty; collapse internal whitespace runs only when the
stripped value contains the two-character substring `"  "`. -/
def validate_title (v : String) : Except String String :=
  if v.length < 1 ∨ 200 < v.length then
    .error "String should have at most 200 characters"
  else if pyStrip v = "" then
    .error "Task title cannot be empty or only whitespace"
  else if hasDoubleSpace (pyStrip v).data then .ok ⟨collapseWS (pyStrip v).data⟩
  else .ok (pyStrip v)

/-- `TaskBase.validate_description` (schemas/task.py lines 49-56), preceded by
`Field(max_length=1000)`: strip; coerce empty-after-strip to `none`. -/
def validate_description (v : Option String) : Except String (Option String) :=
  match v with
  | none => .ok none
  | some s =>
      if 1000 < s.length then .error "String should have at most 1000 characters"
      else if pyStrip s = "" then .ok none
      else .ok (some (pyStrip s))

/-- The title normalization stated by the spec, for refinement comparison
(spec §4.1: "trim surrounding whitespace; collapse runs of internal
whitespace to a single space"). -/
def specTitleNormalize (s : String) : String := ⟨collapseWS (pyStripL s.data)⟩

/-- `TaskCreate` (schemas/task.py lines 59-69): the validated creation payload.
Fields carry the post-validator values; `status`/`priority` carry the schema
defaults when the request omits them.  There is no completion field. -/
structure TaskCreate where
  title : String
  description : Option String := none
  status : TaskStatus := .todo
  priority : TaskPriority := .medium
deriving DecidableEq, Repr

/-- `TaskUpdate` (schemas/task.py lines 72-99): the validated partial-update
payload after `model_dump(exclude_unset=True)`.  `none` means the field was
not supplied; `description = some none` means it was supplied and coerced to
null by the validator. -/
structure TaskUpdate where
  title : Option String := none
  description : Option (Option String) := none
  status : Option TaskStatus := none
  priority : Option TaskPriority := none
  is_completed : Option Bool := none
deriving DecidableEq, Repr

/-! ### Task endpoints (src/app/api/v1/tasks.py) -/

/-- `create_task` (api/v1/tasks.py lines 17-29):
`Task(**task_data.model_dump(), owner_id=current_user.id)` followed by the
column defaults of models/task.py — `is_completed` defaults to `True`
(line 35), `created_at` to the current instant, `updated_at` and
`completed_at` to null. -/
def create_task (input : TaskCreate) (uid id now : Nat) : Task :=
  { id := id
    title := input.title
    description := input.description
    status := input.status
    priority := input.priority
    is_completed := true
    owner_id := uid
    created_at := now
    updated_at := none
    completed_at := none }

/-- The field-application portion of `update_task`
(api/v1/tasks.py lines 93-102): build `update_data` from the explicitly-set
fields, derive `completed_at`/`status` from an explicitly-set `is_completed`,
apply with `setattr`; `updated_at` is then refreshed by the column's
`onupdate=func.now()` (models/task.py line 38). -/
def apply_update (t : Task) (u : TaskUpdate) (now : Nat) : Task :=
  { t with
    title := match u.title with
      | some v => v
      | none => t.title
    description := match u.description with
      | some d => d
      | none => t.description
    priority := match u.priority with
      | some p => p
      | none => t.priority
    status := match u.is_completed with
      | some true => TaskStatus.done
      | _ => match u.status with
        | some s => s
        | none => t.status
    is_completed := match u.is_completed with
      | some b => b
      | none => t.is_completed
    completed_at := match u.is_completed with
      | some true => some now
      | some false => none
      | none => t.completed_at
    updated_at := some now }

/-- Outcome of a single-task endpoint: the two HTTP failures
(`NotFoundException`, `ForbiddenException` — modelled from spec §7, the
exception classes live outside src/) or success. -/
inductive TaskOpResult (α : Type)
  | notFound
  | forbidden
  | ok (val : α)
deriving DecidableEq, Repr

/-- `select(Task).where(Task.id == task_id)` + `scalar_one_or_none()`. -/
def find_task (db : List Task) (tid : Nat) : Option Task :=
  db.find? (fun t => t.id == tid)

/-- `get_task` (api/v1/tasks.py lines 59-74): resolve by id, then check
ownership, then return the task. -/
def get_task (db : List Task) (tid uid : Nat) : TaskOpResult Task :=
  match find_task db tid with
  | none => .notFound
  | some t => if t.owner_id ≠ uid then .forbidden else .ok t

/-- `update_task` (api/v1/tasks.py lines 77-107): resolve by id, check
ownership, then apply the partial update. -/
def update_task (db : List Task) (tid uid : Nat) (u : TaskUpdate) (now : Nat) :
    TaskOpResult Task :=
  match find_task db tid with
  | none => .notFound
  | some t => if t.owner_id ≠ uid then .forbidden else .ok (apply_update t u now)

/-- `delete_task` (api/v1/tasks.py lines 110-128): resolve by id, check
ownership, then delete the resolved row. -/
def delete_task (db : List Task) (tid uid : Nat) : TaskOpResult (List Task) :=
  match find_task db tid with
  | none => .notFound
  | some t =>
      if t.owner_id ≠ uid then .forbidden
      else .ok (db.eraseP (fun x => x.id == tid))

/-- Task states reachable through this API: created via `create_task`, then
mutated by any sequence of owner-performed partial updates. -/
inductive ReachableTask : Task → Prop
  | created (input : TaskCreate) (uid id now : Nat) :
      ReachableTask (create_task input uid id now)
  | updated {t : Task} (u : TaskUpdate) (now : Nat) :
      ReachableTask t → ReachableTask (apply_update t u now)

/-! ### Account data model -/

/-- Modelled from the spec: the `User`/Account record (app/models/user.py is
not among the sources; spec §3 "Account" describes an identity with unique
email and username, a one-way-hashed secret, an active flag; §8's
register-then-login scenario fixes the active flag's default to true). -/
structure Account where
  id : Nat
  email : String
  username : String
  hashed_password : String
  is_active : Bool
deriving DecidableEq, Repr

/-! ### User schemas (src/app/schemas/user.py) -/

/-- The body of the username regex `^[a-zA-Z][a-zA-Z0-9_]*$`: a letter
followed by letters/digits/underscores. -/
def usernameCore (l : List Char) : Bool :=
  match l with
  | [] => false
  | c :: rest => c.isAlpha && rest.all (fun d => d.isAlpha || d.isDigit || d = '_')

/-- Python `re.match(r'^[a-zA-Z][a-zA-Z0-9_]*$', v)`: a full match, except
that Python's `$` also matches just before one trailing newline. -/
def matchesUsernamePattern (s : String) : Bool :=
  usernameCore s.data ||
    (s.data.getLast? == some '\n' && usernameCore s.data.dropLast)

/-- `inappropriate_words` (schemas/user.py line 25). -/
def reserved_usernames : List String := ["admin", "root", "system"]

/-- `UserBase.validate_username` (schemas/user.py lines 17-29), preceded by
`Field(min_length=3, max_length=50)`: reject on pattern failure; reject when
the lower-cased value is reserved; store the lower-cased value. -/
def validate_username_base (v : String) : Except String String :=
  if v.length < 3 ∨ 50 < v.length then
    .error "String should have at most 50 characters"
  else if !matchesUsernamePattern v then
    .error "Username must start with a letter and contain only letters, numbers, and underscores"
  else if reserved_usernames.contains (pyLower v) then
    .error ("Username \"" ++ v ++ "\" is reserved")
  else .ok (pyLower v)

/-- `UserUpdate.validate_username` (schemas/user.py lines 79-90), preceded by
`Field(min_length=3, max_length=50)`: the same pattern check and
lower-casing, but — unlike the registration validator — no reserved-name
check. -/
def validate_username_update (v : String) : Except String String :=
  if v.length < 3 ∨ 50 < v.length then
    .error "String should have at most 50 characters"
  else if !matchesUsernamePattern v then
    .error "Username must start with a letter and contain only letters, numbers, and underscores"
  else .ok (pyLower v)

/-- The punctuation set of `re.search(r'[!@#$%^&*(),.?":\x7b\x7d|<>]', v)`. -/
def passwordSpecialChars : List Char := "!@#$%^&*(),.?\":\x7b\x7d|<>".data

/-- `weak_passwords` (schemas/user.py line 57). -/
def weak_passwords : List String := ["password123", "12345678", "qwerty123"]

/-- `UserCreate.validate_password` (schemas/user.py lines 42-61), preceded by
`Field(min_length=8, max_length=100)`: require an uppercase letter, a
lowercase letter, a digit and a special character; reject a lower-cased
match of the weak-password denylist. -/
def validate_password_create (v : String) : Except String String :=
  if v.length < 8 ∨ 100 < v.length then
    .error "String should have at most 100 characters"
  else if !v.data.any (fun c => 'A' ≤ c && c ≤ 'Z') then
    .error "Password must contain at least one uppercase letter"
  else if !v.data.any (fun c => 'a' ≤ c && c ≤ 'z') then
    .error "Password must contain at least one lowercase letter"
  else if !v.data.any (fun c => c.isDigit) then
    .error "Password must contain at least one digit"
  else if !v.data.any (fun c => passwordSpecialChars.contains c) then
    .error "Password must contain at least one special character"
  else if weak_passwords.contains (pyLower v) then
    .error "Password is too common, please choose a stronger one"
  else .ok v

/-- `UserUpdate.validate_password` (schemas/user.py lines 92-107): the same
four character-class checks, without the weak-password denylist. -/
def validate_password_update (v : String) : Except String String :=
  if v.length < 8 ∨ 100 < v.length then
    .error "String should have at most 100 characters"
  else if !v.data.any (fun c => 'A' ≤ c && c ≤ 'Z') then
    .error "Password must contain at least one uppercase letter"
  else if !v.data.any (fun c => 'a' ≤ c && c ≤ 'z') then
    .error "Password must contain at least one lowercase letter"
  else if !v.data.any (fun c => c.isDigit) then
    .error "Password must contain at least one digit"
  else if !v.data.any (fun c => passwordSpecialChars.contains c) then
    .error "Password must contain at least one special character"
  else .ok v

/-- `UserCreate` (schemas/user.py lines 32-39): the raw registration payload.
`EmailStr` format validation is outside the embedded core and is modelled as
accepting the submitted string unchanged. -/
structure UserCreate where
  email : String
  username : String
  password : String
deriving DecidableEq, Repr

/-- Run the `UserCreate` field validators (schemas/user.py):
username is pattern-checked, reserved-checked and lower-cased; password is
policy-checked. -/
def validate_user_create (i : UserCreate) : Except String UserCreate :=
  match validate_username_base i.username with
  | .error e => .error e
  | .ok un =>
      match validate_password_create i.password with
      | .error e => .error e
      | .ok pw => .ok { email := i.email, username := un, password := pw }

/-- `UserUpdate` (schemas/user.py lines 64-77) after
`model_dump(exclude_unset=True)`: `none` means the field was not supplied. -/
structure UserUpdate where
  email : Option String := none
  username : Option String := none
  password : Option String := none
deriving DecidableEq, Repr

/-! ### Auth endpoints (src/app/api/v1/auth.py) -/

/-- Registration outcome: `BadRequestException` (modelled from spec §7; the
exception classes live outside src/) with its detail, or the created
account. -/
inductive RegResult
  | badRequest (detail : String)
  | created (account : Account)
deriving DecidableEq, Repr

/-- `register` (api/v1/auth.py lines 15-35), with the schema validation
FastAPI runs first: validate the payload; reject a duplicate email
(case-sensitive equality) then a duplicate username (against the stored,
already-lower-cased usernames); only then construct and persist the account.
`hashFn` abstracts `get_password_hash` (app/core/security.py, outside src/).
The returned list is the store after the call: unchanged on any failure. -/
def register (hashFn : String → String) (db : List Account) (i : UserCreate)
    (newId : Nat) : RegResult × List Account :=
  match validate_user_create i with
  | .error e => (.badRequest e, db)
  | .ok v =>
      if (db.find? (fun a => a.email == v.email)).isSome then
        (.badRequest "Email already registered", db)
      else if (db.find? (fun a => a.username == v.username)).isSome then
        (.badRequest "Username already taken", db)
      else
        let a : Account :=
          { id := newId, email := v.email, username := v.username
            hashed_password := hashFn v.password, is_active := true }
        (.created a, db ++ [a])

/-- Login outcome: `UnauthorizedException` with the detail message the
handler passes (the exception class is modelled from spec §7; it lives
outside src/), or a token whose `sub` claim is the stored username
(`create_access_token(data={"sub": user.username})`). -/
inductive LoginResult
  | unauthorized (detail : String)
  | success (subject : String)
deriving DecidableEq, Repr

/-- `select(User).where(User.username == form_data.username)` +
`scalar_one_or_none()` (api/v1/auth.py line 40): the submitted username is
compared RAW — it is not lower-cased before the lookup. -/
def find_account (db : List Account) (username : String) : Option Account :=
  db.find? (fun a => a.username == username)

/-- `login` (api/v1/auth.py lines 38-51): look the account up by the raw
submitted username; missing account and failed password verification share
one detail message; an inactive account fails with a different one.
`verify` abstracts `verify_password` (app/core/security.py, outside src/). -/
def login (verify : String → String → Bool) (db : List Account)
    (username password : String) : LoginResult :=
  match find_account db username with
  | none => .unauthorized "Incorrect username or password"
  | some user =>
      if !verify password user.hashed_password then
        .unauthorized "Incorrect username or password"
      else if !user.is_active then
        .unauthorized "Inactive user"
      else .success user.username

/-! ### User endpoints (src/app/api/v1/users.py) -/

/-- `update_current_user` (api/v1/users.py lines 18-35), with the
`UserUpdate` field validators FastAPI runs first: apply the explicitly-set
fields to the caller's account, hashing a supplied password. -/
def update_current_user (hashFn : String → String) (a : Account)
    (i : UserUpdate) : Except String Account :=
  match (match i.username with
         | none => Except.ok none
         | some u => (validate_username_update u).map some) with
  | .error e => .error e
  | .ok un =>
      match (match i.password with
             | none => Except.ok none
             | some p => (validate_password_update p).map some) with
      | .error e => .error e
      | .ok pw =>
          .ok { a with
                email := match i.email with
                  | some e => e
                  | none => a.email
                username := match un with
                  | some u => u
                  | none => a.username
                hashed_password := match pw with
                  | some p => hashFn p
                  | none => a.hashed_password }

/-! ## Claim theorems -/

/-- C10: every task produced by the create operation has `is_completed = true`
(the model-level column default) and an absent `completed_at`, while the
schema-level `status` default is `todo`; the creation schema exposes no
completion field, so no creation request can override the flag. -/
theorem claim_C10 : ∀ (input : TaskCreate) (uid id now : Nat),
    (create_task input uid id now).is_completed = true ∧
    (create_task input uid id now).completed_at = none ∧
    (∀ (title : String) (desc : Option String),
      ({ title := title, description := desc } : TaskCreate).status = TaskStatus.todo) :=
  fun _ _ _ _ => ⟨rfl, rfl, fun _ _ => rfl⟩

/-- C4: an update that explicitly sets completion to true forces
`status = done` and stamps `completed_at` with the current instant, whatever
the prior state (including an already-completed task); an update that
explicitly sets completion to false leaves `completed_at` absent. -/
theorem claim_C4 (t : Task) (u : TaskUpdate) (now : Nat) :
    (u.is_completed = some true →
      (apply_update t u now).status = TaskStatus.done ∧
      (apply_update t u now).completed_at = some now) ∧
    (u.is_completed = some false → (apply_update t u now).completed_at = none) := by
  constructor
  · intro h
    constructor <;> simp [apply_update, h]
  · intro h
    simp [apply_update, h]

theorem claim_C4_witness :
    (apply_update (create_task { title := "t" } 1 1 0)
        { is_completed := some true } 5).status = TaskStatus.done ∧
    (apply_update (create_task { title := "t" } 1 1 0)
        { is_completed := some true } 5).completed_at = some 5 :=
  (claim_C4 (create_task { title := "t" } 1 1 0) { is_completed := some true } 5).1 rfl

/-- C5: a partial task update only touches the request fields that are
explicitly present (plus the derived completion fields `status` and
`completed_at`); every absent request field keeps its prior value, and
`owner_id`, `created_at` and `id` are never changed by an update. -/
theorem claim_C5 (t : Task) (u : TaskUpdate) (now : Nat) :
    (apply_update t u now).owner_id = t.owner_id ∧
    (apply_update t u now).created_at = t.created_at ∧
    (apply_update t u now).id = t.id ∧
    (u.title = none → (apply_update t u now).title = t.title) ∧
    (u.description = none → (apply_update t u now).description = t.description) ∧
    (u.priority = none → (apply_update t u now).priority = t.priority) ∧
    (u.status = none → u.is_completed = none →
      (apply_update t u now).status = t.status) ∧
    (u.is_completed = none →
      (apply_update t u now).is_completed = t.is_completed ∧
      (apply_update t u now).completed_at = t.completed_at) := by
  refine ⟨rfl, rfl, rfl, ?_, ?_, ?_, ?_, ?_⟩
  · intro h; simp [apply_update, h]
  · intro h; simp [apply_update, h]
  · intro h; simp [apply_update, h]
  · intro hs hc; simp [apply_update, hs, hc]
  · intro hc; constructor <;> simp [apply_update, hc]

theorem claim_C5_witness :
    (apply_update (create_task { title := "t" } 2 7 0) {} 9).title = "t" ∧
    (apply_update (create_task { title := "t" } 2 7 0) {} 9).owner_id = 2 ∧
    (apply_update (create_task { title := "t" } 2 7 0) {} 9).is_completed = true :=
  ⟨(claim_C5 (create_task { title := "t" } 2 7 0) {} 9).2.2.2.1 rfl,
   (claim_C5 (create_task { title := "t" } 2 7 0) {} 9).1,
   ((claim_C5 (create_task { title := "t" } 2 7 0) {} 9).2.2.2.2.2.2.2 rfl).1⟩

/-- C1 (counterexample): immediately after creation — a reachable state —
the completion flag is true while the status is `todo` (not `done`) and the
completion timestamp is absent, so the claimed three-way consistency fails. -/
theorem claim_C1_counterexample :
    ReachableTask (create_task { title := "Write spec" } 1 1 0) ∧
    (create_task { title := "Write spec" } 1 1 0).is_completed = true ∧
    (create_task { title := "Write spec" } 1 1 0).status ≠ TaskStatus.done ∧
    (create_task { title := "Write spec" } 1 1 0).completed_at = none :=
  ⟨ReachableTask.created _ _ _ _, rfl, by decide, rfl⟩

/-- C1 (amended): over all reachable task states only one direction of the
claimed invariant holds — whenever `is_completed` is false, `completed_at`
is absent.  The true-direction is refuted at creation, where `is_completed`
defaults to true with `status = todo` and no `completed_at`. -/
theorem claim_C1_amended (t : Task) (h : ReachableTask t) :
    t.is_completed = false → t.completed_at = none := by
  induction h with
  | created input uid id now =>
      intro hc
      simp [create_task] at hc
  | updated u now _ ih =>
      intro hc
      rcases hu : u.is_completed with _ | b
      · simp only [apply_update, hu] at hc ⊢
        exact ih hc
      · cases b
        · simp [apply_update, hu]
        · simp [apply_update, hu] at hc

theorem claim_C1_amended_witness :
    (apply_update (create_task { title := "t" } 1 1 0)
        { is_completed := some false } 3).completed_at = none :=
  claim_C1_amended _
    (ReachableTask.updated _ _ (ReachableTask.created _ _ _ _)) rfl

/-- C2: the single-task read, update and delete endpoints check existence
before ownership: an unresolved id yields NotFound for every caller; an
existing task owned by someone else yields Forbidden; an existing task owned
by the caller lets the operation proceed. -/
theorem claim_C2 (db : List Task) (tid uid : Nat) (u : TaskUpdate) (now : Nat) :
    (find_task db tid = none →
      get_task db tid uid = .notFound ∧
      update_task db tid uid u now = .notFound ∧
      delete_task db tid uid = .notFound) ∧
    (∀ t : Task, find_task db tid = some t → t.owner_id ≠ uid →
      get_task db tid uid = .forbidden ∧
      update_task db tid uid u now = .forbidden ∧
      delete_task db tid uid = .forbidden) ∧
    (∀ t : Task, find_task db tid = some t → t.owner_id = uid →
      get_task db tid uid = .ok t ∧
      update_task db tid uid u now = .ok (apply_update t u now) ∧
      delete_task db tid uid = .ok (db.eraseP (fun x => x.id == tid))) := by
  refine ⟨?_, ?_, ?_⟩
  · intro h
    refine ⟨?_, ?_, ?_⟩ <;> simp [get_task, update_task, delete_task, h]
  · intro t h hne
    refine ⟨?_, ?_, ?_⟩ <;> simp [get_task, update_task, delete_task, h, hne]
  · intro t h he
    refine ⟨?_, ?_, ?_⟩ <;> simp [get_task, update_task, delete_task, h, he]

theorem claim_C2_witness :
    get_task [create_task { title := "t" } 2 7 0] 7 2
        = .ok (create_task { title := "t" } 2 7 0) ∧
    update_task [create_task { title := "t" } 2 7 0] 7 2 {} 9
        = .ok (apply_update (create_task { title := "t" } 2 7 0) {} 9) ∧
    delete_task [create_task { title := "t" } 2 7 0] 7 2
        = .ok ([create_task { title := "t" } 2 7 0].eraseP (fun x => x.id == 7)) :=
  (claim_C2 [create_task { title := "t" } 2 7 0] 7 2 {} 9).2.2 _ rfl rfl

/-! ## Auth helper lemmas -/

theorem find?_isSome_of_mem {α : Type} {p : α → Bool} {l : List α} {x : α}
    (hx : x ∈ l) (hp : p x = true) : (l.find? p).isSome = true := by
  rw [List.find?_isSome]
  exact ⟨x, hx, hp⟩

theorem validate_username_base_ok {v un : String}
    (h : validate_username_base v = .ok un) : un = pyLower v := by
  unfold validate_username_base at h
  split at h
  · simp at h
  · split at h
    · simp at h
    · split at h
      · simp at h
      · injection h with h
        exact h.symm

theorem validate_user_create_ok {i v : UserCreate}
    (h : validate_user_create i = .ok v) :
    v.email = i.email ∧ v.username = pyLower i.username := by
  unfold validate_user_create at h
  split at h
  · simp at h
  · next un hun =>
      split at h
      · simp at h
      · injection h with h
        subst h
        exact ⟨rfl, validate_username_base_ok hun⟩

theorem register_created {hashFn : String → String} {db : List Account}
    {i : UserCreate} {newId : Nat} {a : Account} {db' : List Account}
    (h : register hashFn db i newId = (.created a, db')) :
    a.email = i.email ∧ a.username = pyLower i.username ∧ a ∈ db' := by
  unfold register at h
  split at h
  · simp at h
  · next v hv =>
      rcases h1 : (db.find? (fun x => x.email == v.email)).isSome with _ | _
      · rw [h1] at h
        simp only [Bool.false_eq_true, if_false] at h
        rcases h2 : (db.find? (fun x => x.username == v.username)).isSome with _ | _
        · rw [h2] at h
          simp only [Bool.false_eq_true, if_false] at h
          obtain ⟨hval1, hval2⟩ := validate_user_create_ok hv
          injection h with hfst hsnd
          injection hfst with hacc
          subst hacc
          subst hsnd
          refine ⟨hval1, hval2, ?_⟩
          exact List.mem_append_right _ (List.mem_singleton.mpr rfl)
        · rw [h2] at h
          simp at h
      · rw [h1] at h
        simp at h

/-! ## Claim theorems (auth) -/

/-- C3 (counterexample): two of the login failure causes are externally
distinguishable — an inactive account fails with detail "Inactive user",
while an unknown username fails with detail "Incorrect username or
password", so the three causes do not share one uniform signal. -/
theorem claim_C3_counterexample :
    login (fun _ _ => true)
        [{ id := 1, email := "b@x.y", username := "bob",
           hashed_password := "h", is_active := false }] "bob" "pw"
      = .unauthorized "Inactive user" ∧
    login (fun _ _ => true)
        [{ id := 1, email := "b@x.y", username := "bob",
           hashed_password := "h", is_active := false }] "alice" "pw"
      = .unauthorized "Incorrect username or password" ∧
    LoginResult.unauthorized "Inactive user"
      ≠ LoginResult.unauthorized "Incorrect username or password" :=
  ⟨rfl, rfl, by decide⟩

/-- C3 (amended): every login failure cause yields the Unauthorized signal;
an unknown username and a failed password verification produce the identical
response (detail "Incorrect username or password"), preventing user
enumeration, but an inactive account produces Unauthorized with the distinct
detail "Inactive user". -/
theorem claim_C3_amended (verify : String → String → Bool) (db : List Account)
    (u p : String) :
    (find_account db u = none →
      login verify db u p = .unauthorized "Incorrect username or password") ∧
    (∀ a : Account, find_account db u = some a →
      verify p a.hashed_password = false →
      login verify db u p = .unauthorized "Incorrect username or password") ∧
    (∀ a : Account, find_account db u = some a →
      verify p a.hashed_password = true → a.is_active = false →
      login verify db u p = .unauthorized "Inactive user") := by
  refine ⟨?_, ?_, ?_⟩
  · intro h; simp [login, h]
  · intro a h hv; simp [login, h, hv]
  · intro a h hv ha; simp [login, h, hv, ha]

theorem claim_C3_amended_witness :
    login (fun _ _ => true)
        [{ id := 1, email := "b@x.y", username := "bob",
           hashed_password := "h", is_active := false }] "bob" "pw"
      = .unauthorized "Inactive user" :=
  (claim_C3_amended (fun _ _ => true)
    [{ id := 1, email := "b@x.y", username := "bob",
       hashed_password := "h", is_active := false }] "bob" "pw").2.2 _ rfl rfl rfl

/-- C8 (counterexample): registration stores the lower-cased username, but
login looks the account up by the RAW submitted string, so a registered
account ("Alice", stored as "alice") with its correct password logs in as
"alice" yet is rejected as "Alice" — the claim's any-letter-casing property
fails. -/
theorem claim_C8_counterexample :
    register (fun p => p) []
        { email := "a@b.c", username := "Alice", password := "Str0ng!pw" } 1
      = (.created
           { id := 1, email := "a@b.c", username := "alice",
             hashed_password := "Str0ng!pw", is_active := true },
         [{ id := 1, email := "a@b.c", username := "alice",
            hashed_password := "Str0ng!pw", is_active := true }]) ∧
    login (fun p h => p == h)
        [{ id := 1, email := "a@b.c", username := "alice",
           hashed_password := "Str0ng!pw", is_active := true }]
        "alice" "Str0ng!pw" = .success "alice" ∧
    login (fun p h => p == h)
        [{ id := 1, email := "a@b.c", username := "alice",
           hashed_password := "Str0ng!pw", is_active := true }]
        "Alice" "Str0ng!pw"
      = .unauthorized "Incorrect username or password" := by
  refine ⟨?_, rfl, rfl⟩
  decide

/-- C8 (amended): registration stores the lower-cased normalization of the
submitted username, but login compares the submitted username raw against
the stored value: it succeeds (given a verifying password and an active
account) exactly for the stored lowercase form and yields Unauthorized when
no stored username equals the raw submission. -/
theorem claim_C8_amended :
    (∀ (verify : String → String → Bool) (db : List Account) (u p : String)
        (a : Account), find_account db u = some a →
        verify p a.hashed_password = true → a.is_active = true →
        login verify db u p = .success a.username) ∧
    (∀ (verify : String → String → Bool) (db : List Account) (u p : String),
        find_account db u = none →
        login verify db u p = .unauthorized "Incorrect username or password") ∧
    (∀ (hashFn : String → String) (db : List Account) (i : UserCreate)
        (newId : Nat) (a : Account) (db' : List Account),
        register hashFn db i newId = (.created a, db') →
        a.username = pyLower i.username) := by
  refine ⟨?_, ?_, ?_⟩
  · intro verify db u p a h hv ha
    simp [login, h, hv, ha]
  · intro verify db u p h
    simp [login, h]
  · intro hashFn db i newId a db' h
    exact (register_created h).2.1

theorem claim_C8_amended_witness :
    login (fun p h => p == h)
        [{ id := 1, email := "a@b.c", username := "alice",
           hashed_password := "Str0ng!pw", is_active := true }]
        "alice" "Str0ng!pw" = .success "alice" :=
  claim_C8_amended.1 (fun p h => p == h)
    [{ id := 1, email := "a@b.c", username := "alice",
       hashed_password := "Str0ng!pw", is_active := true }]
    "alice" "Str0ng!pw" _ rfl (by decide) rfl

/-- C6: the reserved-name invariant is right but the code breaks it on the
update path — registration rejects "Admin" as reserved, yet the self-service
profile update validator omits the reserved check, so updating the username
to "Admin" stores the reserved username "admin". -/
theorem claim_C6_bug :
    validate_username_base "Admin" = .error "Username \"Admin\" is reserved" ∧
    validate_username_update "Admin" = .ok "admin" ∧
    reserved_usernames.contains "admin" = true ∧
    update_current_user (fun p => p)
        { id := 1, email := "a@b.c", username := "alice",
          hashed_password := "H", is_active := true }
        { username := some "Admin" }
      = .ok { id := 1, email := "a@b.c", username := "admin",
              hashed_password := "H", is_active := true } :=
  ⟨rfl, rfl, rfl, rfl⟩

/-- C7: once a registration has succeeded, a second registration with the
same email (case-sensitively) or a case-insensitively equal username always
fails with BadRequest, and the store is left exactly as it was — the
duplicate checks run before any persistence write. -/
theorem claim_C7 (hashFn : String → String) (db : List Account)
    (i₁ i₂ : UserCreate) (id₁ id₂ : Nat) (a : Account) (db₁ : List Account)
    (h₁ : register hashFn db i₁ id₁ = (.created a, db₁))
    (hdup : i₂.email = i₁.email ∨ pyLower i₂.username = pyLower i₁.username) :
    (∃ e, (register hashFn db₁ i₂ id₂).1 = .badRequest e) ∧
    (register hashFn db₁ i₂ id₂).2 = db₁ := by
  obtain ⟨hae, hau, hmem⟩ := register_created h₁
  rcases hv₂ : validate_user_create i₂ with e | v₂
  · exact ⟨⟨e, by simp [register, hv₂]⟩, by simp [register, hv₂]⟩
  · obtain ⟨hv₂e, hv₂u⟩ := validate_user_create_ok hv₂
    rcases hemail : (db₁.find? (fun x => x.email == v₂.email)).isSome with _ | _
    · have huser : (db₁.find? (fun x => x.username == v₂.username)).isSome = true := by
        rcases hdup with h | h
        · exfalso
          have : (db₁.find? (fun x => x.email == v₂.email)).isSome = true := by
            refine find?_isSome_of_mem hmem ?_
            rw [hae, hv₂e, h]
            exact beq_self_eq_true _
          rw [this] at hemail
          cases hemail
        · refine find?_isSome_of_mem hmem ?_
          rw [hau, hv₂u, h]
          exact beq_self_eq_true _
      refine ⟨⟨"Username already taken", ?_⟩, ?_⟩ <;>
        simp [register, hv₂, hemail, huser]
    · refine ⟨⟨"Email already registered", ?_⟩, ?_⟩ <;>
        simp [register, hv₂, hemail]

theorem claim_C7_witness :
    (∃ e, (register (fun p => p)
        [{ id := 1, email := "a@b.c", username := "alice",
           hashed_password := "Str0ng!pw", is_active := true }]
        { email := "x@y.z", username := "ALICE", password := "Str0ng!pw" } 2).1
      = .badRequest e) ∧
    (register (fun p => p)
        [{ id := 1, email := "a@b.c", username := "alice",
           hashed_password := "Str0ng!pw", is_active := true }]
        { email := "x@y.z", username := "ALICE", password := "Str0ng!pw" } 2).2
      = [{ id := 1, email := "a@b.c", username := "alice",
           hashed_password := "Str0ng!pw", is_active := true }] :=
  claim_C7 (fun p => p) []
    { email := "a@b.c", username := "Alice", password := "Str0ng!pw" }
    { email := "x@y.z", username := "ALICE", password := "Str0ng!pw" } 1 2
    { id := 1, email := "a@b.c", username := "alice",
      hashed_password := "Str0ng!pw", is_active := true }
    [{ id := 1, email := "a@b.c", username := "alice",
       hashed_password := "Str0ng!pw", is_active := true }]
    (by decide) (Or.inr (by decide))

/-! ## Whitespace lemmas (for the title-normalization claim) -/

/-- Is the head (if any) a non-whitespace character? -/
def headNotSpaceB : List Char → Bool
  | [] => true
  | c :: _ => !isPySpace c

/-- Is the last character (if any) a non-whitespace character? -/
def lastNotSpaceB (l : List Char) : Bool :=
  match l.getLast? with
  | none => true
  | some c => !isPySpace c

theorem splitWS_nil : splitWS [] = [] := rfl

theorem splitWS_cons_space {c : Char} {rest : List Char}
    (h : isPySpace c = true) : splitWS (c :: rest) = splitWS rest := by
  unfold splitWS
  simp [List.length_cons, splitWSF, h]

theorem splitWS_cons_word {c : Char} {rest : List Char}
    (h : isPySpace c = false) :
    splitWS (c :: rest) = (c :: takeWord rest) :: splitWS (dropWord rest) := by
  unfold splitWS
  simp only [List.length_cons, splitWSF, h, Bool.false_eq_true, if_false]
  exact congrArg (fun x => (c :: takeWord rest) :: x)
    (splitWSF_fuel _ _ _ (dropWord_length_le _) (Nat.le_refl _))

theorem joinWords_single (w : List Char) : joinWords [w] = w := rfl

theorem joinWords_cons_cons (w w' : List Char) (ws : List (List Char)) :
    joinWords (w :: w' :: ws) = w ++ ' ' :: joinWords (w' :: ws) := rfl

theorem takeWord_append_dropWord (l : List Char) :
    takeWord l ++ dropWord l = l := by
  induction l with
  | nil => rfl
  | cons c rest ih =>
      cases hc : isPySpace c
      · simp [takeWord, dropWord, hc, ih]
      · simp [takeWord, dropWord, hc]

theorem takeWord_eq_of_dropWord_nil {l : List Char} (h : dropWord l = []) :
    takeWord l = l := by
  have h2 := takeWord_append_dropWord l
  rw [h, List.append_nil] at h2
  exact h2

theorem dropWord_head_space {l ds : List Char} {d : Char}
    (h : dropWord l = d :: ds) : isPySpace d = true := by
  induction l with
  | nil => simp [dropWord] at h
  | cons c rest ih =>
      cases hc : isPySpace c
      · rw [dropWord, hc] at h
        exact ih (by simpa using h)
      · rw [dropWord, hc] at h
        simp at h
        rw [← h.1]
        exact hc

theorem hasDoubleSpace_tail {a : Char} {l : List Char}
    (h : hasDoubleSpace (a :: l) = false) : hasDoubleSpace l = false := by
  cases l with
  | nil => rfl
  | cons b r =>
      simp only [hasDoubleSpace, Bool.or_eq_false_iff] at h
      exact h.2

theorem hasDoubleSpace_append {pre l : List Char}
    (h : hasDoubleSpace (pre ++ l) = false) : hasDoubleSpace l = false := by
  induction pre with
  | nil => exact h
  | cons a pre ih => exact ih (hasDoubleSpace_tail h)

theorem hasDoubleSpace_two (pre post : List Char) :
    hasDoubleSpace (pre ++ ' ' :: ' ' :: post) = true := by
  induction pre with
  | nil => simp [hasDoubleSpace]
  | cons a pre ih =>
      cases pre with
      | nil => simp [hasDoubleSpace]
      | cons b pre2 =>
          simp only [List.cons_append, hasDoubleSpace, Bool.or_eq_true] at ih ⊢
          exact Or.inr ih

/-- A list whose whitespace is only plain spaces, with no double space and no
space at either end, is unchanged by split-then-join. -/
theorem joinWords_splitWS_eq : ∀ (n : Nat) (l : List Char), l.length ≤ n →
    (∀ c ∈ l, isPySpace c = true → c = ' ') →
    hasDoubleSpace l = false →
    headNotSpaceB l = true →
    lastNotSpaceB l = true →
    joinWords (splitWS l) = l := by
  intro n
  induction n with
  | zero =>
      intro l hl _ _ _ _
      have : l = [] := List.length_eq_zero.mp (Nat.le_zero.mp hl)
      subst this
      rw [splitWS_nil]
      rfl
  | succ n ih =>
      intro l hl hsp hdb hhead hlast
      cases l with
      | nil =>
          rw [splitWS_nil]
          rfl
      | cons c rest =>
          have hc : isPySpace c = false := by
            simpa [headNotSpaceB] using hhead
          rw [splitWS_cons_word hc]
          cases hdw : dropWord rest with
          | nil =>
              rw [splitWS_nil, joinWords_single,
                takeWord_eq_of_dropWord_nil hdw]
          | cons d ds =>
              have hdsp : isPySpace d = true := dropWord_head_space hdw
              have hrest : rest = takeWord rest ++ d :: ds := by
                conv_lhs => rw [← takeWord_append_dropWord rest]
                rw [hdw]
              have hdmem : d ∈ c :: rest := by
                refine List.mem_cons_of_mem _ ?_
                rw [hrest]
                exact List.mem_append_right _ (List.mem_cons_self _ _)
              have hd' : d = ' ' := hsp d hdmem hdsp
              subst hd'
              cases ds with
              | nil =>
                  exfalso
                  have hlastd : (c :: rest).getLast? = some ' ' := by
                    conv_lhs => rw [hrest]
                    rw [show c :: (takeWord rest ++ [' '])
                          = (c :: takeWord rest) ++ [' '] from rfl]
                    rw [List.getLast?_append_of_ne_nil _ (by simp)]
                    rfl
                  unfold lastNotSpaceB at hlast
                  rw [hlastd] at hlast
                  simp [hdsp] at hlast
              | cons e es =>
                  have he : isPySpace e = false := by
                    cases hesp : isPySpace e
                    · rfl
                    · exfalso
                      have hemem : e ∈ c :: rest := by
                        refine List.mem_cons_of_mem _ ?_
                        rw [hrest]
                        refine List.mem_append_right _ ?_
                        exact List.mem_cons_of_mem _ (List.mem_cons_self _ _)
                      have he' : e = ' ' := hsp e hemem hesp
                      subst he'
                      have hshape : c :: rest
                          = (c :: takeWord rest) ++ ' ' :: ' ' :: es := by
                        conv_lhs => rw [hrest]
                        rfl
                      have hds : hasDoubleSpace (c :: rest) = true := by
                        rw [hshape]
                        exact hasDoubleSpace_two _ _
                      rw [hds] at hdb
                      cases hdb
                  have hshape2 : c :: rest
                      = (c :: (takeWord rest ++ [' '])) ++ e :: es := by
                    conv_lhs => rw [hrest]
                    simp
                  have hlen : (e :: es).length ≤ n := by
                    have h1 : rest.length ≤ n := by
                      have h0 := hl
                      simp only [List.length_cons] at h0
                      omega
                    have h2 : (takeWord rest ++ ' ' :: e :: es).length
                        = rest.length := by rw [← hrest]
                    simp only [List.length_append, List.length_cons] at h2
                    simp only [List.length_cons]
                    omega
                  have hspl : ∀ x ∈ e :: es, isPySpace x = true → x = ' ' := by
                    intro x hx hxs
                    refine hsp x ?_ hxs
                    rw [hshape2]
                    exact List.mem_cons_of_mem _ (List.mem_append_right _ hx)
                  have hdb2 : hasDoubleSpace (e :: es) = false := by
                    refine @hasDoubleSpace_append (c :: (takeWord rest ++ [' '])) _ ?_
                    rw [← hshape2]
                    exact hdb
                  have hh2 : headNotSpaceB (e :: es) = true := by
                    simp [headNotSpaceB, he]
                  have hl2 : lastNotSpaceB (e :: es) = true := by
                    unfold lastNotSpaceB at hlast ⊢
                    rw [hshape2] at hlast
                    rw [List.getLast?_append_of_ne_nil _ (by simp)] at hlast
                    exact hlast
                  have hIH := ih (e :: es) hlen hspl hdb2 hh2 hl2
                  rw [splitWS_cons_space hdsp, splitWS_cons_word he,
                    joinWords_cons_cons, ← splitWS_cons_word he, hIH]
                  conv_rhs => rw [hrest]
                  rfl

theorem headNotSpaceB_dropLeadingWS (l : List Char) :
    headNotSpaceB (dropLeadingWS l) = true := by
  induction l with
  | nil => rfl
  | cons c rest ih =>
      cases hc : isPySpace c
      · simp [dropLeadingWS, List.dropWhile_cons, hc, headNotSpaceB]
      · simpa [dropLeadingWS, List.dropWhile_cons, hc] using ih

theorem mem_dropLeadingWS {x : Char} {l : List Char}
    (h : x ∈ dropLeadingWS l) : x ∈ l :=
  (List.dropWhile_suffix isPySpace).subset h

theorem headNotSpaceB_dropTrailingWS {l : List Char}
    (h : headNotSpaceB l = true) : headNotSpaceB (dropTrailingWS l) = true := by
  cases l with
  | nil => rfl
  | cons c rest =>
      have hc : isPySpace c = false := by simpa [headNotSpaceB] using h
      rw [dropTrailingWS]
      cases hd : dropTrailingWS rest
      · simp [hc, headNotSpaceB]
      · simp [headNotSpaceB, hc]

theorem lastNotSpaceB_dropTrailingWS (l : List Char) :
    lastNotSpaceB (dropTrailingWS l) = true := by
  induction l with
  | nil => rfl
  | cons c rest ih =>
      rw [dropTrailingWS]
      cases hd : dropTrailingWS rest with
      | nil =>
          cases hc : isPySpace c
          · simp [lastNotSpaceB, hc]
          · simp [lastNotSpaceB, hc]
      | cons r rs =>
          rw [hd] at ih
          unfold lastNotSpaceB at ih ⊢
          rw [List.getLast?_cons_cons]
          exact ih

theorem mem_dropTrailingWS {x : Char} {l : List Char}
    (h : x ∈ dropTrailingWS l) : x ∈ l := by
  induction l with
  | nil => simp [dropTrailingWS] at h
  | cons c rest ih =>
      rw [dropTrailingWS] at h
      cases hd : dropTrailingWS rest with
      | nil =>
          rw [hd] at h
          cases hc : isPySpace c
          · rw [hc] at h
            simp at h
            simp [h]
          · rw [hc] at h
            simp at h
      | cons r rs =>
          rw [hd] at h
          rcases List.mem_cons.mp h with h1 | h1
          · simp [h1]
          · refine List.mem_cons_of_mem _ (ih ?_)
            rw [hd]
            exact h1

theorem headNotSpaceB_pyStripL (l : List Char) :
    headNotSpaceB (pyStripL l) = true :=
  headNotSpaceB_dropTrailingWS (headNotSpaceB_dropLeadingWS l)

theorem lastNotSpaceB_pyStripL (l : List Char) :
    lastNotSpaceB (pyStripL l) = true :=
  lastNotSpaceB_dropTrailingWS (dropLeadingWS l)

theorem mem_pyStripL {x : Char} {l : List Char} (h : x ∈ pyStripL l) : x ∈ l :=
  mem_dropLeadingWS (mem_dropTrailingWS h)

/-! ## Claim theorems (title/description normalization) -/

/-- C9 (counterexample): the title `"a\tb"` is accepted unchanged — the code
collapses internal whitespace only when the stripped title contains two
consecutive spaces, so a run made of a tab survives, while the claimed
normalization would store `"a b"`. -/
theorem claim_C9_counterexample :
    validate_title "a\tb" = .ok "a\tb" ∧
    specTitleNormalize "a\tb" = "a b" ∧
    ("a\tb" : String) ≠ "a b" :=
  ⟨rfl, rfl, by decide⟩

/-- In the collapse branch (a double space present after stripping), the
accepted title is exactly the spec's trim-and-collapse normalization. -/
theorem validate_title_ok_of_double {s r : String}
    (hok : validate_title s = .ok r)
    (hd : hasDoubleSpace (pyStrip s).data = true) : r = specTitleNormalize s := by
  unfold validate_title at hok
  by_cases h1 : s.length < 1 ∨ 200 < s.length
  · rw [if_pos h1] at hok
    cases hok
  · rw [if_neg h1] at hok
    by_cases h2 : pyStrip s = ""
    · rw [if_pos h2] at hok
      cases hok
    · rw [if_neg h2, if_pos hd] at hok
      injection hok with hok
      exact hok.symm

/-- C9 (amended): a title that is empty after trimming is rejected, and an
empty-after-trim description is coerced to absent; the stored title equals
the spec's trim-and-collapse normalization whenever the stripped input
contains a double space (the collapse branch) or the input's whitespace
consists of plain spaces only — but not in general: internal tab/newline
runs without a double space are stored verbatim. -/
theorem claim_C9_amended (s : String) :
    (pyStrip s = "" → ∃ e, validate_title s = .error e) ∧
    (∀ r, validate_title s = .ok r →
      hasDoubleSpace (pyStrip s).data = true → r = specTitleNormalize s) ∧
    (∀ r, validate_title s = .ok r →
      (∀ c ∈ s.data, isPySpace c = true → c = ' ') →
      r = specTitleNormalize s) ∧
    (s.length ≤ 1000 → pyStrip s = "" →
      validate_description (some s) = .ok none) := by
  refine ⟨?_, ?_, ?_, ?_⟩
  · intro h
    by_cases hlen : s.length < 1 ∨ 200 < s.length
    · exact ⟨"String should have at most 200 characters",
        by unfold validate_title; rw [if_pos hlen]⟩
    · exact ⟨"Task title cannot be empty or only whitespace",
        by unfold validate_title; rw [if_neg hlen, if_pos h]⟩
  · intro r hok hd
    exact validate_title_ok_of_double hok hd
  · intro r hok hsp
    cases hd : hasDoubleSpace (pyStrip s).data
    · unfold validate_title at hok
      split at hok
      · cases hok
      · next hne =>
          split at hok
          · cases hok
          · next hne2 =>
              rw [hd] at hok
              simp only [Bool.false_eq_true, if_false] at hok
              injection hok with hok
              subst hok
              unfold specTitleNormalize collapseWS
              have hj : joinWords (splitWS (pyStripL s.data)) = pyStripL s.data := by
                refine joinWords_splitWS_eq (pyStripL s.data).length _
                  (Nat.le_refl _) ?_ ?_ ?_ ?_
                · intro c hc hcs
                  exact hsp c (mem_pyStripL hc) hcs
                · exact hd
                · exact headNotSpaceB_pyStripL s.data
                · exact lastNotSpaceB_pyStripL s.data
              rw [hj]
              rfl
    · exact validate_title_ok_of_double hok hd
  · intro hlen h
    simp only [validate_description]
    rw [if_neg (by omega), if_pos h]

theorem claim_C9_amended_witness :
    ("a b" : String) = specTitleNormalize " a  b " :=
  (claim_C9_amended " a  b ").2.2.1 "a b" rfl (by decide)

end TaskAPI
